import Mathlib

/-!
Verification of the risinglight streaming core against its specification.

The development shallowly embeds the relevant Rust source files:
  * `src/catalog/table.rs`        — `TableCatalog` and column bookkeeping;
  * `src/streaming/executor/mod.rs` — the plan `Builder` (egraph extraction,
    column resolution, pipeline construction);
  * `src/executor_v2/create.rs`   — the `CREATE TABLE` executor.

Rust `HashMap`/`BTreeMap` are modelled as association lists (`alistLookup`
returns the binding of the first matching key, which is the unique one for
maps built by the modelled insertions; `btreeInsert` keeps the key order of a
`BTreeMap`).  A Rust panic is modelled as `none` / an error value, and `&mut
self` methods return the updated structure alongside the `Except` result.
-/

set_option autoImplicit false

namespace RisingLight

/-! ### Association-list models of `HashMap` and `BTreeMap` -/

/-- Lookup of a key in an association list: the value of the first binding
whose key matches.  Models `HashMap::get` / `BTreeMap::get` (maps hold each
key at most once, so "first" is exact). -/
def alistLookup {α β : Type} [DecidableEq α] : List (α × β) → α → Option β
  | [], _ => none
  | (k0, v) :: rest, k => if k0 = k then some v else alistLookup rest k

/-- Insertion into an association list, replacing the binding when the key is
already present.  Models `HashMap::insert`. -/
def alistInsert {α β : Type} [DecidableEq α] : List (α × β) → α → β → List (α × β)
  | [], k, v => [(k, v)]
  | (k0, v0) :: rest, k, v =>
    if k0 = k then (k, v) :: rest else (k0, v0) :: alistInsert rest k v

/-- Key-ordered insertion, replacing the binding when the key is already
present.  Models `BTreeMap::insert` on the sorted entry list. -/
def btreeInsert {β : Type} : List (Nat × β) → Nat → β → List (Nat × β)
  | [], k, v => [(k, v)]
  | (k0, v0) :: rest, k, v =>
    if k < k0 then (k, v) :: (k0, v0) :: rest
    else if k = k0 then (k, v) :: rest
    else (k0, v0) :: btreeInsert rest k v

/-- Removal of a key from a key-ordered association list.  Models
`BTreeMap::remove` (the map holds each key at most once). -/
def btreeRemove {β : Type} : List (Nat × β) → Nat → List (Nat × β)
  | [], _ => []
  | (k0, v0) :: rest, k => if k0 = k then rest else (k0, v0) :: btreeRemove rest k

/-! ### Catalog data model (`src/catalog/table.rs`) -/

abbrev ColumnId := Nat
abbrev TableId := Nat

/-- The data-type kinds used by the modelled code paths. -/
inductive DataTypeKind where
  | int32
  | int64
  | boolean
  | float64
  deriving DecidableEq, Repr

/-- A data type: a kind plus nullability, as produced by
`DataTypeKind::not_null()` and friends. -/
structure DataType where
  kind : DataTypeKind
  nullable : Bool
  deriving DecidableEq, Repr

/-- Model of `ColumnCatalog`: the column id together with the column
description (name and data type). -/
structure ColumnCatalog where
  id : ColumnId
  name : String
  datatype : DataType
  deriving DecidableEq, Repr

/-- Model of `TableType`. -/
inductive TableType where
  | base
  | system
  | materializedView
  deriving DecidableEq, Repr

/-- Model of `CatalogError`; only the `Duplicated` variant is reachable from
the modelled code. -/
inductive CatalogError where
  | duplicated (kind : String) (name : String)
  deriving DecidableEq, Repr

/-- Model of `TableCatalog`.  `column_idxs` models the
`HashMap<String, ColumnId>` from column names to ids and `columns` models the
`BTreeMap<ColumnId, ColumnCatalog>` (kept in key order by `btreeInsert`). -/
structure TableCatalog where
  id : TableId
  name : String
  type_ : TableType
  column_idxs : List (String × ColumnId)
  columns : List (ColumnId × ColumnCatalog)
  primary_keys : List ColumnId
  deriving DecidableEq, Repr

/-- The reserved row-identity column id `u32::MAX`. -/
def ROWID_ID : ColumnId := 4294967295

/-- The synthetic row-identity column inserted by `TableCatalog::new`:
`ColumnCatalog::new(u32::MAX, DataTypeKind::Int64.not_null().to_column("_rowid_"))`. -/
def rowidColumn : ColumnCatalog := ⟨ROWID_ID, "_rowid_", ⟨.int64, false⟩⟩

/-- Model of `TableCatalog::add_column`.  The Rust method takes `&mut self`
and returns `Result<ColumnId, CatalogError>`; the model returns the result
together with the (possibly updated) catalog. -/
def TableCatalog.add_column (t : TableCatalog) (c : ColumnCatalog) :
    Except CatalogError ColumnId × TableCatalog :=
  if (alistLookup t.column_idxs c.name).isSome then
    (.error (.duplicated "column" c.name), t)
  else
    (.ok c.id,
      { t with
        column_idxs := alistInsert t.column_idxs c.name c.id
        columns := btreeInsert t.columns c.id c })

/-- The loop in `TableCatalog::new` adding the declared columns; each
`add_column` result is `unwrap`ped, so an error aborts (modelled as `none`). -/
def TableCatalog.addAll : TableCatalog → List ColumnCatalog → Option TableCatalog
  | t, [] => some t
  | t, c :: rest =>
    match t.add_column c with
    | (.ok _, t1) => t1.addAll rest
    | (.error _, _) => none

/-- Model of `TableCatalog::new`: starts from the empty maps, adds the
synthetic row-identity column, then the declared columns in order, unwrapping
each `add_column` result (`none` models the panic of `unwrap`). -/
def TableCatalog.new (id : TableId) (name : String) (type_ : TableType)
    (columns : List ColumnCatalog) (primary_keys : List ColumnId) :
    Option TableCatalog :=
  let t0 : TableCatalog :=
    { id := id, name := name, type_ := type_, column_idxs := [], columns := [],
      primary_keys := primary_keys }
  match t0.add_column rowidColumn with
  | (.ok _, t1) => t1.addAll columns
  | (.error _, _) => none

/-- Model of `TableCatalog::contains_column`. -/
def TableCatalog.contains_column (t : TableCatalog) (n : String) : Bool :=
  (alistLookup t.column_idxs n).isSome

/-- Model of `TableCatalog::all_columns`: a copy of the column map with the
row-identity key removed. -/
def TableCatalog.all_columns (t : TableCatalog) : List (ColumnId × ColumnCatalog) :=
  btreeRemove t.columns ROWID_ID

/-- Model of `TableCatalog::all_columns_with_rowid`: the full column map. -/
def TableCatalog.all_columns_with_rowid (t : TableCatalog) :
    List (ColumnId × ColumnCatalog) :=
  t.columns

/-- Model of `TableCatalog::get_column_id_by_name`. -/
def TableCatalog.get_column_id_by_name (t : TableCatalog) (n : String) :
    Option ColumnId :=
  alistLookup t.column_idxs n

/-- Model of `TableCatalog::get_column_by_id`. -/
def TableCatalog.get_column_by_id (t : TableCatalog) (i : ColumnId) :
    Option ColumnCatalog :=
  alistLookup t.columns i

/-- Model of `TableCatalog::get_column_by_name`: name → id via `column_idxs`,
then id → column via `columns`. -/
def TableCatalog.get_column_by_name (t : TableCatalog) (n : String) :
    Option ColumnCatalog :=
  (alistLookup t.column_idxs n).bind (fun i => alistLookup t.columns i)

/-! ### Lemmas about the map models -/

theorem alistLookup_insert_self {α β : Type} [DecidableEq α]
    (m : List (α × β)) (k : α) (v : β) :
    alistLookup (alistInsert m k v) k = some v := by
  induction m with
  | nil => simp [alistInsert, alistLookup]
  | cons p rest ih =>
    obtain ⟨k0, v0⟩ := p
    by_cases h : k0 = k
    · simp [alistInsert, alistLookup, h]
    · simp [alistInsert, alistLookup, h, ih]

theorem alistLookup_insert_ne {α β : Type} [DecidableEq α]
    (m : List (α × β)) (k k1 : α) (v : β) (h : k1 ≠ k) :
    alistLookup (alistInsert m k v) k1 = alistLookup m k1 := by
  induction m with
  | nil => simp [alistInsert, alistLookup, Ne.symm h]
  | cons p rest ih =>
    obtain ⟨k0, v0⟩ := p
    by_cases h0 : k0 = k
    · subst h0
      simp [alistInsert, alistLookup, Ne.symm h]
    · by_cases h1 : k0 = k1 <;> simp [alistInsert, alistLookup, h0, h1, h, ih]

theorem alistLookup_insert_isSome {α β : Type} [DecidableEq α]
    (m : List (α × β)) (k k1 : α) (v : β) :
    (alistLookup (alistInsert m k v) k1).isSome =
      ((alistLookup m k1).isSome || decide (k1 = k)) := by
  by_cases h : k1 = k
  · subst h
    simp [alistLookup_insert_self]
  · simp [alistLookup_insert_ne m k k1 v h, h]

theorem alistLookup_btreeInsert_self {β : Type} (m : List (Nat × β)) (k : Nat) (v : β) :
    alistLookup (btreeInsert m k v) k = some v := by
  induction m with
  | nil => simp [btreeInsert, alistLookup]
  | cons p rest ih =>
    obtain ⟨k0, v0⟩ := p
    by_cases h1 : k < k0
    · simp [btreeInsert, alistLookup, h1]
    · by_cases h2 : k = k0
      · simp [btreeInsert, alistLookup, h1, h2]
      · have h3 : k0 ≠ k := by omega
        simp [btreeInsert, alistLookup, h1, h2, h3, ih]

/-! ### Name bookkeeping for `TableCatalog::new` -/

/-- Membership test on a list of names. -/
def memNames (n : String) : List String → Bool
  | [] => false
  | m :: rest => decide (m = n) || memNames n rest

/-- True when some name occurs at least twice in the list. -/
def dupNames : List String → Bool
  | [] => false
  | n :: rest => memNames n rest || dupNames rest

theorem memNames_iff (n : String) (l : List String) :
    memNames n l = true ↔ n ∈ l := by
  induction l with
  | nil => simp [memNames]
  | cons m rest ih =>
    simp [memNames, ih]
    constructor
    · rintro (h | h)
      · exact Or.inl h.symm
      · exact Or.inr h
    · rintro (h | h)
      · exact Or.inl h.symm
      · exact Or.inr h

/-- A successful `add_column` extends the name map by exactly the new
column's name. -/
theorem add_column_ok_names {t : TableCatalog} {c : ColumnCatalog}
    {r : ColumnId} {t1 : TableCatalog}
    (h : t.add_column c = (.ok r, t1)) (n : String) :
    (alistLookup t1.column_idxs n).isSome =
      ((alistLookup t.column_idxs n).isSome || decide (n = c.name)) := by
  unfold TableCatalog.add_column at h
  by_cases hc : (alistLookup t.column_idxs c.name).isSome
  · simp [hc] at h
  · simp [hc] at h
    obtain ⟨-, h2⟩ := h
    subst h2
    exact alistLookup_insert_isSome t.column_idxs c.name n c.id

/-- If some column of `cols` already has its name bound in `t`, or two
columns of `cols` share a name, then the `add_column` loop of
`TableCatalog::new` hits the duplicated-entity error and the `unwrap`
aborts (modelled as `none`). -/
theorem addAll_eq_none_of_conflict (cols : List ColumnCatalog) (t : TableCatalog)
    (h : (∃ c ∈ cols, (alistLookup t.column_idxs c.name).isSome = true) ∨
         dupNames (cols.map ColumnCatalog.name) = true) :
    t.addAll cols = none := by
  induction cols generalizing t with
  | nil =>
    rcases h with ⟨c, hc, _⟩ | hd
    · simp at hc
    · simp [dupNames] at hd
  | cons c rest ih =>
    by_cases hmem : (alistLookup t.column_idxs c.name).isSome = true
    · simp [TableCatalog.addAll, TableCatalog.add_column, hmem]
    · have hok : t.add_column c =
          (.ok c.id,
            { t with
              column_idxs := alistInsert t.column_idxs c.name c.id
              columns := btreeInsert t.columns c.id c }) := by
        simp [TableCatalog.add_column, hmem]
      rw [show t.addAll (c :: rest) =
            ({ t with
              column_idxs := alistInsert t.column_idxs c.name c.id
              columns := btreeInsert t.columns c.id c } : TableCatalog).addAll rest by
            simp [TableCatalog.addAll, hok]]
      apply ih
      rcases h with ⟨c1, hc1, hl1⟩ | hd
      · rcases List.mem_cons.mp hc1 with he | hr
        · subst he
          exact absurd hl1 hmem
        · left
          refine ⟨c1, hr, ?_⟩
          rw [add_column_ok_names hok c1.name, hl1]
          simp
      · rw [List.map_cons, dupNames] at hd
        rcases Bool.or_eq_true_iff.mp hd with hmn | hdr
        · left
          have hnm : c.name ∈ rest.map ColumnCatalog.name := (memNames_iff _ _).mp hmn
          obtain ⟨c1, hc1, hname⟩ := List.mem_map.mp hnm
          refine ⟨c1, hc1, ?_⟩
          rw [add_column_ok_names hok c1.name, hname]
          simp
        · right
          exact hdr

/-! ### Claim theorems about the table catalog -/

/-- C4: `add_column` on a column whose name is already present returns the
duplicated-entity error for that name and returns the catalog exactly as it
was: the name→id map and the stored columns are untouched. -/
theorem add_column_duplicate_unchanged (t : TableCatalog) (c : ColumnCatalog)
    (h : (alistLookup t.column_idxs c.name).isSome = true) :
    t.add_column c = (.error (.duplicated "column" c.name), t) := by
  simp [TableCatalog.add_column, h]

theorem add_column_duplicate_unchanged_witness :
    (TableCatalog.mk 0 "t" .base [("a", 0)] [(0, ⟨0, "a", ⟨.int32, false⟩⟩)] []).add_column
        ⟨1, "a", ⟨.boolean, false⟩⟩ =
      (.error (.duplicated "column" "a"),
        TableCatalog.mk 0 "t" .base [("a", 0)] [(0, ⟨0, "a", ⟨.int32, false⟩⟩)] []) :=
  add_column_duplicate_unchanged _ _ (by decide)

/-- C5: a freshly constructed table with declared columns `a` (id 0) and `b`
(id 1) has `all_columns` equal to exactly the two declared entries, with the
synthetic row-identity column excluded, while `all_columns_with_rowid`
additionally holds the reserved row-identity id, for a total of 3 entries. -/
theorem new_two_columns_all_columns (i : TableId) (nm : String) (ty : TableType)
    (pk : List ColumnId) (a b : String) (ta tb : DataType)
    (hab : a ≠ b) (ha : a ≠ "_rowid_") (hb : b ≠ "_rowid_") :
    ∃ t, TableCatalog.new i nm ty [⟨0, a, ta⟩, ⟨1, b, tb⟩] pk = some t ∧
      t.all_columns = [(0, ⟨0, a, ta⟩), (1, ⟨1, b, tb⟩)] ∧
      t.all_columns_with_rowid =
        [(0, ⟨0, a, ta⟩), (1, ⟨1, b, tb⟩), (ROWID_ID, rowidColumn)] ∧
      t.all_columns_with_rowid.length = 3 := by
  refine ⟨TableCatalog.mk i nm ty [("_rowid_", ROWID_ID), (a, 0), (b, 1)]
      [(0, ⟨0, a, ta⟩), (1, ⟨1, b, tb⟩), (ROWID_ID, rowidColumn)] pk, ?_, ?_, ?_, ?_⟩
  · norm_num [TableCatalog.new, TableCatalog.addAll, TableCatalog.add_column,
      alistLookup, alistInsert, btreeInsert, rowidColumn, ROWID_ID,
      Ne.symm ha, Ne.symm hb, hab]
  · norm_num [TableCatalog.all_columns, btreeRemove, ROWID_ID]
  · rfl
  · rfl

theorem new_two_columns_all_columns_witness :
    ∃ t, TableCatalog.new 7 "t" .base
        [⟨0, "a", ⟨.int32, false⟩⟩, ⟨1, "b", ⟨.boolean, false⟩⟩] [] = some t ∧
      t.all_columns = [(0, ⟨0, "a", ⟨.int32, false⟩⟩), (1, ⟨1, "b", ⟨.boolean, false⟩⟩)] ∧
      t.all_columns_with_rowid =
        [(0, ⟨0, "a", ⟨.int32, false⟩⟩), (1, ⟨1, "b", ⟨.boolean, false⟩⟩),
          (ROWID_ID, rowidColumn)] ∧
      t.all_columns_with_rowid.length = 3 :=
  new_two_columns_all_columns 7 "t" .base [] "a" "b" ⟨.int32, false⟩ ⟨.boolean, false⟩
    (by decide) (by decide) (by decide)

/-- C8: `TableCatalog::new` aborts (the Rust code panics on `unwrap`,
modelled as `none`) instead of returning an error whenever the declared
column list repeats a name or uses the reserved name of the synthetic
row-identity column. -/
theorem new_aborts_on_duplicate_or_rowid (i : TableId) (nm : String)
    (ty : TableType) (cols : List ColumnCatalog) (pk : List ColumnId)
    (h : dupNames (cols.map ColumnCatalog.name) = true ∨
         memNames "_rowid_" (cols.map ColumnCatalog.name) = true) :
    TableCatalog.new i nm ty cols pk = none := by
  have h0 : TableCatalog.new i nm ty cols pk =
      (TableCatalog.mk i nm ty [("_rowid_", ROWID_ID)] [(ROWID_ID, rowidColumn)]
        pk).addAll cols := by
    simp [TableCatalog.new, TableCatalog.add_column, alistLookup, alistInsert,
      btreeInsert, rowidColumn]
  rw [h0]
  apply addAll_eq_none_of_conflict
  rcases h with hd | hr
  · right
    exact hd
  · left
    have hnm : "_rowid_" ∈ cols.map ColumnCatalog.name := (memNames_iff _ _).mp hr
    obtain ⟨c1, hc1, hname⟩ := List.mem_map.mp hnm
    refine ⟨c1, hc1, ?_⟩
    rw [hname]
    rfl

theorem new_aborts_on_duplicate_or_rowid_witness :
    TableCatalog.new 0 "t" .base
      [⟨0, "a", ⟨.int32, false⟩⟩, ⟨1, "a", ⟨.boolean, false⟩⟩] [] = none :=
  new_aborts_on_duplicate_or_rowid 0 "t" .base
    [⟨0, "a", ⟨.int32, false⟩⟩, ⟨1, "a", ⟨.boolean, false⟩⟩] [] (Or.inl (by decide))

/-- C9: `add_column` checks only name uniqueness, never id uniqueness: a
column with a fresh name but an id already stored is accepted, the stored
column under that id is replaced, both names map to the same id afterwards,
and `get_column_by_name` for the older name now returns the newer column. -/
theorem add_column_ignores_id_collision (t : TableCatalog) (c : ColumnCatalog)
    (nOld : String) (cOld : ColumnCatalog)
    (hfresh : alistLookup t.column_idxs c.name = none)
    (hold : alistLookup t.column_idxs nOld = some c.id)
    (_hstored : alistLookup t.columns c.id = some cOld) :
    ∃ t1, t.add_column c = (.ok c.id, t1) ∧
      t1.get_column_by_id c.id = some c ∧
      t1.get_column_id_by_name nOld = some c.id ∧
      t1.get_column_id_by_name c.name = some c.id ∧
      t1.get_column_by_name nOld = some c := by
  have hne : nOld ≠ c.name := by
    intro e
    rw [e, hfresh] at hold
    cases hold
  refine ⟨{ t with
      column_idxs := alistInsert t.column_idxs c.name c.id
      columns := btreeInsert t.columns c.id c }, ?_, ?_, ?_, ?_, ?_⟩
  · simp [TableCatalog.add_column, hfresh]
  · exact alistLookup_btreeInsert_self t.columns c.id c
  · show alistLookup (alistInsert t.column_idxs c.name c.id) nOld = some c.id
    rw [alistLookup_insert_ne t.column_idxs c.name nOld c.id hne, hold]
  · exact alistLookup_insert_self t.column_idxs c.name c.id
  · show (alistLookup (alistInsert t.column_idxs c.name c.id) nOld).bind _ = some c
    rw [alistLookup_insert_ne t.column_idxs c.name nOld c.id hne, hold]
    simpa using alistLookup_btreeInsert_self t.columns c.id c

theorem add_column_ignores_id_collision_witness :
    ∃ t1, (TableCatalog.mk 0 "t" .base [("x", 0)]
        [(0, ⟨0, "x", ⟨.int32, false⟩⟩)] []).add_column ⟨0, "y", ⟨.boolean, false⟩⟩ =
        (.ok 0, t1) ∧
      t1.get_column_by_id 0 = some ⟨0, "y", ⟨.boolean, false⟩⟩ ∧
      t1.get_column_id_by_name "x" = some 0 ∧
      t1.get_column_id_by_name "y" = some 0 ∧
      t1.get_column_by_name "x" = some ⟨0, "y", ⟨.boolean, false⟩⟩ :=
  add_column_ignores_id_collision
    (TableCatalog.mk 0 "t" .base [("x", 0)] [(0, ⟨0, "x", ⟨.int32, false⟩⟩)] [])
    ⟨0, "y", ⟨.boolean, false⟩⟩ "x" ⟨0, "x", ⟨.int32, false⟩⟩ rfl rfl rfl

/-! ### Streaming plan builder (`src/streaming/executor/mod.rs`)

The `egg` e-graph is modelled as a map from class ids to the class's node
list (`classNodes`) together with the memoized analysis schema of each class
(`classSchema`, the ordered class-id provenance of the output columns).
`Builder::node` indexes `nodes[0]`; classes are nonempty in `egg`, so the
model returns an `Option` and treats an empty class as an error.  The
recursion of `build_recexpr` and `build_id` over the graph is bounded by an
explicit fuel argument; running out of fuel is a distinguished error that
never occurs on the acyclic graphs the code trusts. -/

abbrev ClassId := Nat

/-- The plan-node language, mirroring the `Expr` variants the builder
distinguishes: `Scan([table, list])`, `Proj([projs, child])`,
`Column`, `ColumnIndex`, `List`, `Table`, and every remaining variant
collapsed into `other` (children referenced by class id). -/
inductive Expr where
  | scan (table : ClassId) (lst : ClassId)
  | proj (projs : ClassId) (child : ClassId)
  | column (c : Nat)
  | columnIndex (i : Nat)
  | list (ids : List ClassId)
  | table (t : TableId)
  | other (tag : Nat) (children : List ClassId)
  deriving DecidableEq, Repr

/-- The child class ids of a node, in order. -/
def Expr.children : Expr → List ClassId
  | .scan t l => [t, l]
  | .proj p c => [p, c]
  | .column _ => []
  | .columnIndex _ => []
  | .list ids => ids
  | .table _ => []
  | .other _ cs => cs

/-- The node kinds `Builder::build_id` implements as streaming operators:
table scan and projection. -/
def Expr.isPlanNode : Expr → Bool
  | .scan _ _ => true
  | .proj _ _ => true
  | _ => false

/-- Model of the e-graph state the builder reads: per-class node lists and
per-class analysis schemas. -/
structure EGraph where
  classNodes : ClassId → List Expr
  classSchema : ClassId → List ClassId

/-- Model of `Builder::node`: `&self.egraph[id].nodes[0]`, the first node of
the class (`none` models the out-of-bounds panic on an empty class, which
cannot occur for classes created by `egg`). -/
def EGraph.node (g : EGraph) (i : ClassId) : Option Expr :=
  (g.classNodes i).head?

/-- First index of a class id in a schema: model of
`schema.iter().position(|x| *x == id)`. -/
def firstIndexOf (schema : List ClassId) (i : ClassId) : Option Nat :=
  match schema with
  | [] => none
  | x :: rest => if x = i then some 0 else (firstIndexOf rest i).map (· + 1)

/-- Errors of column resolution.  `unresolvedColumn` models the
`panic!`-style abort `"column {c} not found from input"`; `missingClass` and
`fuelOut` are artefacts of the model that cannot occur on `egg` graphs. -/
inductive ResolveError where
  | unresolvedColumn (c : Nat)
  | missingClass
  | fuelOut
  deriving DecidableEq, Repr

/-- A concrete expression tree, the model of the `RecExpr` produced by
`build_recexpr`: each node keeps its `Expr` shape, and its resolved
subtrees correspond positionally to `Expr.children`. -/
inductive RTree where
  | node (e : Expr) (children : List RTree)

/-- The closure passed to `build_recexpr` in `resolve_column_index`: a class
id whose first schema position is `p` becomes `ColumnIndex(p)` (whatever
node the class holds); otherwise the class's node is returned, except that a
column-reference node aborts with the unresolved-column condition. -/
def resolveStep (g : EGraph) (schema : List ClassId) (i : ClassId) :
    Except ResolveError Expr :=
  match firstIndexOf schema i with
  | some p => .ok (.columnIndex p)
  | none =>
    match g.node i with
    | some (.column c) => .error (.unresolvedColumn c)
    | some e => .ok e
    | none => .error .missingClass

/-- Resolution of a list of child class ids with a fixed per-child
resolver, in order, stopping at the first error. -/
def resolveChildren (resolveAt : ClassId → Except ResolveError RTree) :
    List ClassId → Except ResolveError (List RTree)
  | [] => .ok []
  | i :: rest =>
    match resolveAt i with
    | .error err => .error err
    | .ok t =>
      match resolveChildren resolveAt rest with
      | .error err => .error err
      | .ok ts => .ok (t :: ts)

/-- The recursive rebuild performed by `build_recexpr` under the resolution
closure: resolve the class id to a node via `resolveStep`, then resolve the
(possibly pruned) children of that node. -/
def resolveTree (g : EGraph) (schema : List ClassId) : Nat → ClassId →
    Except ResolveError RTree
  | 0, _ => .error .fuelOut
  | fuel + 1, i =>
    match resolveStep g schema i with
    | .error err => .error err
    | .ok e =>
      match resolveChildren (fun j => resolveTree g schema fuel j) e.children with
      | .error err => .error err
      | .ok cs => .ok (.node e cs)

/-- Model of `Builder::resolve_column_index(expr, plan)`: looks up `plan`'s
analysis schema and rebuilds `expr`'s tree.  As in the source, the root node
is taken from the class directly and only child ids pass through the
resolution closure. -/
def resolve_column_index (g : EGraph) (fuel : Nat) (expr plan : ClassId) :
    Except ResolveError RTree :=
  let schema := g.classSchema plan
  match g.node expr with
  | none => .error .missingClass
  | some e =>
    match resolveChildren (fun j => resolveTree g schema fuel j) e.children with
    | .error err => .error err
    | .ok cs => .ok (.node e cs)

/-- Errors of pipeline construction.  `unsupportedPlanNode` models the abort
`"not a plan: {node}"`; `notATable`, `notAList`, `notAColumn` model the
panics of the `as_table` / `as_list` / `as_column` conversions. -/
inductive BuildError where
  | unsupportedPlanNode
  | resolveFailed (e : ResolveError)
  | notATable
  | notAList
  | notAColumn
  | missingClass
  | fuelOut
  deriving DecidableEq, Repr

/-- A constructed streaming operator: `TableScanExecutor` holds the scanned
table and the requested column ids; `ProjectionExecutor` holds the resolved
projection list and wraps its child operator. -/
inductive Operator where
  | scanOp (table : TableId) (columns : List Nat)
  | projOp (projs : RTree) (child : Operator)

/-- The `as_column` conversion mapped over a scan's column list. -/
def asColumns (g : EGraph) : List ClassId → Except BuildError (List Nat)
  | [] => .ok []
  | i :: rest =>
    match g.node i with
    | some (.column c) =>
      match asColumns g rest with
      | .ok cs => .ok (c :: cs)
      | .error e => .error e
    | _ => .error .notAColumn

/-- The `Scan([table, list])` arm of `Builder::build_id`: converts the table
operand via `as_table`, the column-list operand via `as_list`, and each
requested column via `as_column`, yielding the constructed
`TableScanExecutor`.  No scheduling happens here. -/
def buildScan (g : EGraph) (tbl lst : ClassId) : Except BuildError Operator :=
  match g.node tbl with
  | some (.table t) =>
    match g.node lst with
    | some (.list ids) =>
      match asColumns g ids with
      | .ok cols => .ok (.scanOp t cols)
      | .error e => .error e
    | _ => .error .notAList
  | _ => .error .notATable

/-- Model of `Builder::build_id`.  The third argument is the list of
operators already handed to `spawn_stream` (identified by their class id),
in spawn order; the result carries the final list, and an error carries the
list as it stood when the failure occurred.  As in the source, for a
projection the column resolution runs first, then the child pipeline is
built (spawning the child's operators), and only then is the current
operator spawned. -/
def build_id (g : EGraph) : Nat → ClassId → List ClassId →
    Except (BuildError × List ClassId) (Operator × List ClassId)
  | 0, _, sched => .error (.fuelOut, sched)
  | fuel + 1, i, sched =>
    match g.node i with
    | none => .error (.missingClass, sched)
    | some (.scan tbl lst) =>
      match buildScan g tbl lst with
      | .ok op => .ok (op, sched ++ [i])
      | .error e => .error (e, sched)
    | some (.proj projs child) =>
      match resolve_column_index g fuel projs child with
      | .error e => .error (.resolveFailed e, sched)
      | .ok rt =>
        match build_id g fuel child sched with
        | .error es => .error es
        | .ok (op, sched1) => .ok (.projOp rt op, sched1 ++ [i])
    | some _ => .error (.unsupportedPlanNode, sched)

/-- Model of `Builder::build`: compile from the root with nothing scheduled
yet. -/
def build (g : EGraph) (fuel : Nat) (root : ClassId) :
    Except (BuildError × List ClassId) (Operator × List ClassId) :=
  build_id g fuel root []

/-! ### Claim theorems about extraction, resolution and compilation -/

/-- C6: `Builder::node` always extracts the first member of the class's node
list as the representative; since it is a pure function of the graph state,
repeated extractions from the same state yield the same node. -/
theorem node_extracts_first_member (g : EGraph) (i : ClassId) (e : Expr)
    (rest : List Expr) (h : g.classNodes i = e :: rest) :
    g.node i = some e := by
  simp [EGraph.node, h]

/-- Concrete e-graph whose class 0 holds two congruent members. -/
def egTwoMembers : EGraph :=
  ⟨fun _ => [.column 3, .column 4], fun _ => []⟩

theorem node_extracts_first_member_witness :
    egTwoMembers.node 0 = some (.column 3) :=
  node_extracts_first_member egTwoMembers 0 (.column 3) [.column 4] rfl

/-- Concrete e-graph for resolution: class 5 holds a column reference, class
2 holds the projection list `[5]`, and the plan class 1 has analysis schema
`[5, 5]` (the same provenance class at positions 0 and 1, as produced by
projecting the same expression twice). -/
def egDupSchema : EGraph :=
  ⟨fun i => if i = 5 then [.column 9] else if i = 2 then [.list [5]] else [],
   fun p => if p = 1 then [5, 5] else []⟩

/-- C1 counterexample: the schema of the context class 1 has length 2 and
contains class id 5 at position 1, yet resolving the reference to class 5
yields resolved column index 0, not 1 — `position` returns the first
matching index, so the claim fails for any later position of a duplicated
class id. -/
theorem resolve_positional_cex :
    (egDupSchema.classSchema 1).length = 2 ∧
    (egDupSchema.classSchema 1).get? 1 = some 5 ∧
    resolve_column_index egDupSchema 1 2 1 =
      .ok (.node (.list [5]) [.node (.columnIndex 0) []]) :=
  ⟨rfl, rfl, rfl⟩

/-- C1 (amended): resolution is positional up to first occurrence: if class
id `X` first occurs at position `k` of the context schema then resolving a
reference to `X` yields resolved column index `k` — hence exactly `k`
whenever `X` occupies a single position — and a column reference whose
class id is absent from the schema always fails with the unresolved-column
condition, never defaulting to an arbitrary index. -/
theorem resolve_positionally_exact (g : EGraph) (schema : List ClassId)
    (fuel : Nat) (i : ClassId) :
    (∀ k, firstIndexOf schema i = some k →
      resolveTree g schema (fuel + 1) i = .ok (.node (.columnIndex k) [])) ∧
    (∀ c, firstIndexOf schema i = none → g.node i = some (.column c) →
      resolveTree g schema (fuel + 1) i = .error (.unresolvedColumn c)) := by
  constructor
  · intro k hk
    simp [resolveTree, resolveStep, hk, Expr.children, resolveChildren]
  · intro c hn hc
    simp [resolveTree, resolveStep, hn, hc]

theorem resolve_positionally_exact_witness :
    resolveTree egDupSchema [5, 5] 1 5 = .ok (.node (.columnIndex 0) []) :=
  (resolve_positionally_exact egDupSchema [5, 5] 0 5).1 0 rfl

/-- Concrete e-graph for resolution: class 7 holds a node that is not a
column reference (`other 3 []`, standing for e.g. an arithmetic expression),
class 2 holds the projection list `[7]`, and the context class 1 has
analysis schema `[7]` (a computed output column). -/
def egComputedSchema : EGraph :=
  ⟨fun i => if i = 7 then [.other 3 []] else if i = 2 then [.list [7]] else [],
   fun p => if p = 1 then [7] else []⟩

/-- C2 counterexample: class 7's node is not a column reference, yet because
its class id occurs at position 0 of the context schema the node is itself
replaced by resolved column index 0 instead of being rebuilt recursively —
the substitution tests schema membership before looking at the node kind. -/
theorem resolve_only_columns_cex :
    egComputedSchema.node 7 = some (.other 3 []) ∧
    resolve_column_index egComputedSchema 1 2 1 =
      .ok (.node (.list [7]) [.node (.columnIndex 0) []]) :=
  ⟨rfl, rfl⟩

/-- C2 (amended): during resolution, any node — of any kind — whose class id
sits at (first) position `p` of the context schema becomes resolved column
index `p`; a node whose class id is absent from the schema is rebuilt
recursively with its children substituted the same way (and a
column-reference node absent from the schema fails, per C1). -/
theorem resolve_substitutes_by_class (g : EGraph) (schema : List ClassId)
    (fuel : Nat) (i : ClassId) :
    (∀ p, firstIndexOf schema i = some p →
      resolveTree g schema (fuel + 1) i = .ok (.node (.columnIndex p) [])) ∧
    (∀ e, firstIndexOf schema i = none → g.node i = some e →
      (∀ c, e ≠ Expr.column c) →
      resolveTree g schema (fuel + 1) i =
        (resolveChildren (fun j => resolveTree g schema fuel j) e.children).map
          (fun cs => RTree.node e cs)) := by
  constructor
  · intro p hp
    simp [resolveTree, resolveStep, hp, Expr.children, resolveChildren]
  · intro e hn he hnc
    have hstep : resolveStep g schema i = .ok e := by
      cases e <;>
        first
        | exact absurd rfl (hnc _)
        | simp [resolveStep, hn, he]
    rw [resolveTree, hstep]
    cases h2 : resolveChildren (fun j => resolveTree g schema fuel j) e.children <;>
      simp [h2, Except.map]

theorem resolve_substitutes_by_class_witness :
    resolveTree egComputedSchema [7] 1 2 =
      (resolveChildren (fun j => resolveTree egComputedSchema [7] 0 j)
        (Expr.list [7]).children).map (fun cs => RTree.node (.list [7]) cs) :=
  (resolve_substitutes_by_class egComputedSchema [7] 0 2).2 (.list [7]) rfl rfl
    (fun _ h => nomatch h)

/-- An error result of `build_id` carries the scheduled-operator list
unchanged: every failure of the compiler happens before it hands any
further operator to `spawn_stream`. -/
theorem build_id_error_sched (g : EGraph) :
    ∀ (fuel : Nat) (i : ClassId) (sched : List ClassId) (e : BuildError)
      (s : List ClassId), build_id g fuel i sched = .error (e, s) → s = sched := by
  intro fuel
  induction fuel with
  | zero =>
    intro i sched e s h
    simp [build_id] at h
    exact h.2.symm
  | succ fuel ih =>
    intro i sched e s h
    cases hn : g.node i with
    | none =>
      simp [build_id, hn] at h
      exact h.2.symm
    | some n =>
      cases n with
      | scan tbl lst =>
        cases hb : buildScan g tbl lst with
        | ok op => simp [build_id, hn, hb] at h
        | error e2 =>
          simp [build_id, hn, hb] at h
          exact h.2.symm
      | proj projs child =>
        cases hr : resolve_column_index g fuel projs child with
        | error e2 =>
          simp [build_id, hn, hr] at h
          exact h.2.symm
        | ok rt =>
          cases hbc : build_id g fuel child sched with
          | error es =>
            simp [build_id, hn, hr, hbc] at h
            rw [h] at hbc
            exact ih child sched e s hbc
          | ok pr => simp [build_id, hn, hr, hbc] at h
      | column c =>
        simp [build_id, hn] at h
        exact h.2.symm
      | columnIndex c =>
        simp [build_id, hn] at h
        exact h.2.symm
      | list ids =>
        simp [build_id, hn] at h
        exact h.2.symm
      | table t =>
        simp [build_id, hn] at h
        exact h.2.symm
      | other tag cs =>
        simp [build_id, hn] at h
        exact h.2.symm

/-- C3: compilation of a plan whose visited node is of a kind other than
table scan or projection fails with the unsupported-plan-node condition, and
every compilation failure leaves the scheduled-operator list exactly as it
was — with an initially empty list, a failed compilation schedules nothing,
so no partially-started pipeline is ever left running. -/
theorem build_unsupported_fails_before_scheduling (g : EGraph) (fuel : Nat)
    (i : ClassId) (sched : List ClassId) :
    (∀ e s, build_id g fuel i sched = .error (e, s) → s = sched) ∧
    (∀ n, g.node i = some n → n.isPlanNode = false → 0 < fuel →
      build_id g fuel i sched = .error (.unsupportedPlanNode, sched)) := by
  refine ⟨fun e s h => build_id_error_sched g fuel i sched e s h, ?_⟩
  intro n hn hp hf
  obtain ⟨fuel, rfl⟩ : ∃ f, fuel = f + 1 := ⟨fuel - 1, by omega⟩
  cases n <;> simp_all [build_id, Expr.isPlanNode]

/-- Concrete e-graph whose class 0 holds a bare column reference — a node
kind that is not a streaming operator. -/
def egNotAPlan : EGraph := ⟨fun _ => [.column 1], fun _ => []⟩

theorem build_unsupported_fails_before_scheduling_witness :
    build_id egNotAPlan 1 0 [] = .error (.unsupportedPlanNode, []) :=
  (build_unsupported_fails_before_scheduling egNotAPlan 1 0 []).2 (.column 1)
    rfl rfl (by decide)

/-! ### `CREATE TABLE` executor (`src/executor_v2/create.rs`)

`CreateTableExecutor::execute` first calls `storage.create_table` (an
external collaborator, modelled as an abstract state transformer on a
storage state), then — exactly when the statement's `with` configuration
mapping contains the key `"connector"` — calls
`stream.create_source` (also abstract), and finally yields the single-row
acknowledgment chunk `DataChunk::single(1)`.  `?` propagation is modelled by
`Except`; the model also returns the storage state as it stands when the
executor finishes or fails, plus whether connector creation was attempted. -/

/-- A data chunk, recording only the ack payload the executor yields. -/
structure DataChunk where
  value : Nat
  deriving DecidableEq, Repr

/-- Model of `DataChunk::single`. -/
def DataChunk.single (n : Nat) : DataChunk := ⟨n⟩

/-- Executor-level errors: an opaque storage error or a connector
configuration error. -/
inductive ExecutorError where
  | storage (msg : String)
  | connectorConfig (msg : String)
  deriving DecidableEq, Repr

/-- The storage state visible to the executor: the created tables (id and
name) and the next table id. -/
structure StorageState where
  tables : List (TableId × String)
  nextId : TableId
  deriving DecidableEq, Repr

/-- Model of `CreateTableExecutor::execute`.  `create_table` models
`storage.create_table(...)` and `create_source` models
`stream.create_source(id, &with)`.  The result is the yielded chunk list
(empty when an error is propagated by `?`), the storage state at the end of
the call, and whether connector creation was attempted. -/
def createTableExecute
    (create_table : StorageState → Except ExecutorError (TableId × StorageState))
    (create_source : TableId → List (String × String) → Except ExecutorError Unit)
    (with_ : List (String × String)) (st : StorageState) :
    Except ExecutorError (List DataChunk) × StorageState × Bool :=
  match create_table st with
  | .error e => (.error e, st, false)
  | .ok (id, st1) =>
    if (alistLookup with_ "connector").isSome then
      match create_source id with_ with
      | .error e => (.error e, st1, true)
      | .ok _ => (.ok [DataChunk.single 1], st1, true)
    else
      (.ok [DataChunk.single 1], st1, false)

/-- C7: once table creation succeeds, connector creation is attempted
exactly when the `with` mapping contains the key `"connector"`; when the key
is absent, no connector creation is attempted (for any behaviour of
`create_source`) and the statement succeeds, yielding the acknowledgment
chunk. -/
theorem create_table_connector_iff
    (create_table : StorageState → Except ExecutorError (TableId × StorageState))
    (create_source : TableId → List (String × String) → Except ExecutorError Unit)
    (with_ : List (String × String)) (st st1 : StorageState) (id : TableId)
    (h : create_table st = .ok (id, st1)) :
    (createTableExecute create_table create_source with_ st).2.2 =
      (alistLookup with_ "connector").isSome ∧
    ((alistLookup with_ "connector").isSome = false →
      createTableExecute create_table create_source with_ st =
        (.ok [DataChunk.single 1], st1, false)) := by
  constructor
  · by_cases hw : (alistLookup with_ "connector").isSome
    · cases hs : create_source id with_ <;>
        simp [createTableExecute, h, hw, hs]
    · simp [createTableExecute, h, hw]
  · intro hw
    simp [createTableExecute, h, hw]

theorem create_table_connector_iff_witness :
    (createTableExecute (fun st => .ok (st.nextId, ⟨st.tables ++ [(st.nextId, "t")], st.nextId + 1⟩))
        (fun _ _ => .ok ()) [("path", "x")] ⟨[], 0⟩).2.2 = false ∧
    createTableExecute (fun st => .ok (st.nextId, ⟨st.tables ++ [(st.nextId, "t")], st.nextId + 1⟩))
        (fun _ _ => .ok ()) [("path", "x")] ⟨[], 0⟩ =
      (.ok [DataChunk.single 1], ⟨[(0, "t")], 1⟩, false) := by
  have h := create_table_connector_iff
    (fun st => .ok (st.nextId, ⟨st.tables ++ [(st.nextId, "t")], st.nextId + 1⟩))
    (fun _ _ => .ok ()) [("path", "x")] ⟨[], 0⟩ ⟨[(0, "t")], 1⟩ 0 rfl
  exact ⟨h.1, h.2 rfl⟩

/-- C10: `CREATE TABLE` with a connector is not atomic: when table creation
has succeeded (moving storage to `st1`, which holds the new table) and
connector creation then fails, the error propagates, no acknowledgment
chunk is yielded, and the storage state stays `st1` — the already-created
table is not rolled back. -/
theorem create_table_no_rollback
    (create_table : StorageState → Except ExecutorError (TableId × StorageState))
    (create_source : TableId → List (String × String) → Except ExecutorError Unit)
    (with_ : List (String × String)) (st st1 : StorageState) (id : TableId)
    (e : ExecutorError)
    (hc : create_table st = .ok (id, st1))
    (hw : (alistLookup with_ "connector").isSome = true)
    (hs : create_source id with_ = .error e) :
    createTableExecute create_table create_source with_ st = (.error e, st1, true) := by
  simp [createTableExecute, hc, hw, hs]

theorem create_table_no_rollback_witness :
    createTableExecute
        (fun st => .ok (st.nextId, ⟨st.tables ++ [(st.nextId, "t")], st.nextId + 1⟩))
        (fun _ _ => .error (.connectorConfig "missing field"))
        [("connector", "kafka")] ⟨[], 0⟩ =
      (.error (.connectorConfig "missing field"), ⟨[(0, "t")], 1⟩, true) :=
  create_table_no_rollback
    (fun st => .ok (st.nextId, ⟨st.tables ++ [(st.nextId, "t")], st.nextId + 1⟩))
    (fun _ _ => .error (.connectorConfig "missing field"))
    [("connector", "kafka")] ⟨[], 0⟩ ⟨[(0, "t")], 1⟩ 0 (.connectorConfig "missing field")
    rfl rfl rfl

end RisingLight
